import Mathlib

/-!
Verification of the resilient tool adapter of the Lakebridge workshop
repository (`workshop/core/lakebridge_adapter.py`).

Modelling conventions used throughout this development:

* Python strings are modelled as `String` / `List Char`; `str.upper()` and
  `str.lower()` are modelled character-wise with `Char.toUpper` /
  `Char.toLower` (the adapter only manipulates ASCII SQL text and version
  strings, where the two agree with Python).
* Python floats are modelled by exact rationals `ℚ`; the scorer only adds
  and compares small decimal constants, for which rational arithmetic is
  the intended reading of the code.
* File contents are passed explicitly: a "directory" is a list of
  `(file name, file content)` pairs and a "file" is its content string.
  The `read_text` exception branch of the source is filesystem
  nondeterminism and is outside the pure model.
* Subprocess invocations (`databricks ...`) are modelled by explicit
  environment records carrying the exit code and captured output of each
  call, threaded into the functions that the source lets shell out.
* `packaging.version.parse` is an external library; it is modelled on its
  release-only fragment (dotted numeric components, compared by
  zero-padded lexicographic order, exactly PEP 440 on that fragment);
  every other input is a parse failure.
-/

namespace Workshop

/-- Boolean test that `p` is an initial segment of `t` (used to model
Python substring search primitives on `List Char`). -/
def startsWithL : List Char → List Char → Bool
  | [], _ => true
  | _ :: _, [] => false
  | a :: as, b :: bs => a == b && startsWithL as bs

/-- Models the Python `in` substring test: `p` occurs somewhere in `t`. -/
def containsSub (p : List Char) : List Char → Bool
  | [] => p.isEmpty
  | c :: t' => startsWithL p (c :: t') || containsSub p t'

/-- Models Python `str.count`: number of non-overlapping occurrences of
`p` in `t`, scanning left to right.  (The source never counts an empty
pattern; an empty pattern yields 0 here.) -/
def countOcc (p : List Char) (t : List Char) : Nat :=
  match t with
  | [] => 0
  | c :: t' =>
    if !p.isEmpty && startsWithL p (c :: t') then
      1 + countOcc p (t'.drop (p.length - 1))
    else
      countOcc p t'
termination_by t.length
decreasing_by
  all_goals simp only [List.length_cons, List.length_drop]
  all_goals omega

/-- Models `str.upper()` (character-wise, ASCII fragment). -/
def upperL (l : List Char) : List Char := l.map Char.toUpper

/-- Models `str.lower()` (character-wise, ASCII fragment). -/
def lowerL (l : List Char) : List Char := l.map Char.toLower

/-- Splits a character list at every occurrence of `sep`, keeping empty
segments, as Python `str.split(sep)` does. -/
def splitOnChar (sep : Char) : List Char → List (List Char)
  | [] => [[]]
  | c :: rest =>
    match splitOnChar sep rest with
    | [] => [[c]]
    | g :: gs => if c = sep then [] :: g :: gs else (c :: g) :: gs

/-- Numeric value of a list of decimal digits. -/
def decValL (l : List Char) : Nat := l.foldl (fun n c => 10 * n + (c.toNat - 48)) 0

/- ----------------------------------------------------------------- -/
/- VersionPolicy: `LakebridgeAdapter._check_version_compatibility`    -/
/- ----------------------------------------------------------------- -/

/-- Models the release-only fragment of `packaging.version.parse` (the
external `packaging` dependency of the source): a version string is a
dot-separated sequence of non-empty decimal components; anything else is
a parse failure. -/
def parseVersion (s : String) : Option (List Nat) :=
  let parts := splitOnChar '.' s.data
  if parts.all (fun p => !p.isEmpty && p.all Char.isDigit) then
    some (parts.map decValL)
  else
    none

/-- Strict comparison of parsed versions: lexicographic on components,
padding the shorter tuple with zeros (PEP 440 release ordering). -/
def verLt : List Nat → List Nat → Bool
  | [], [] => false
  | [], y :: ys => if 0 < y then true else verLt [] ys
  | _ :: _, [] => false
  | x :: xs, y :: ys => if x < y then true else if y < x then false else verLt xs ys

/-- Version `a >= b`; release ordering is total, so `>=` is the negation
of `<`. -/
def verGe (a b : List Nat) : Bool := !(verLt a b)

def SUPPORTED_VERSIONS_minimum : String := "0.1.0"

def SUPPORTED_VERSIONS_maximum : String := "2.0.0"

def SUPPORTED_VERSIONS_recommended : String := "0.3.0"

/-- Embedding of `LakebridgeAdapter._check_version_compatibility`.  The
source reads `self.lakebridge_version` (here the argument); a falsy value
(`None` or `""`) or the sentinel `"unknown"` yields `"unknown_version"`;
a version that `packaging` cannot parse (the `except` branch) yields
`"parse_error"`; otherwise the version is compared against the supported
range exactly as the source does. -/
def checkVersionCompatibility (lakebridgeVersion : Option String) : String :=
  match lakebridgeVersion with
  | none => "unknown_version"
  | some v =>
    if v = "" ∨ v = "unknown" then "unknown_version"
    else
      match parseVersion v, parseVersion SUPPORTED_VERSIONS_minimum,
            parseVersion SUPPORTED_VERSIONS_maximum with
      | some cur, some minV, some maxV =>
        if verLt cur minV then "too_old (minimum: " ++ SUPPORTED_VERSIONS_minimum ++ ")"
        else if verGe cur maxV then "too_new (maximum: " ++ SUPPORTED_VERSIONS_maximum ++ ")"
        else "compatible"
      | _, _, _ => "parse_error"

/-- The five spec-level compatibility values; `compatClass` reads them
off the result strings of the source function. -/
inductive Compatibility where
  | unknown
  | too_old
  | too_new
  | compatible
  | parse_error
deriving DecidableEq, Repr

/-- Spec-level classification of a result string of
`checkVersionCompatibility` (the source embeds the configured bound in
the `too_old` / `too_new` strings). -/
def compatClass (s : String) : Compatibility :=
  if s = "compatible" then .compatible
  else if startsWithL "too_old".data s.data then .too_old
  else if startsWithL "too_new".data s.data then .too_new
  else if s = "parse_error" then .parse_error
  else .unknown

/- ----------------------------------------------------------------- -/
/- ComplexityScorer: `_estimate_sql_complexity`                       -/
/- ----------------------------------------------------------------- -/

/-- Line-terminator characters recognised by Python `str.splitlines`
(`"\r\n"` pairs are handled separately as a single terminator). -/
def isLineBreakChar (c : Char) : Bool :=
  c = '\n' || c = '\r' || c = '\x0B' || c = '\x0C' ||
  c = '\x1C' || c = '\x1D' || c = '\x1E' || c = '\x85' ||
  c = '\u2028' || c = '\u2029'

/-- Models `len(text.splitlines())` as a single-character scan.
`afterCR` records that the previous character was a counted `'\r'` (so a
following `'\n'` belongs to the same `"\r\n"` terminator and is skipped);
`inLine` records that we are inside an unterminated final line, which
counts as one more line at the end of the text. -/
def numLinesAux (afterCR : Bool) (inLine : Bool) : List Char → Nat
  | [] => if inLine then 1 else 0
  | c :: rest =>
    if afterCR && c == '\n' then numLinesAux false false rest
    else if c == '\r' then 1 + numLinesAux true false rest
    else if isLineBreakChar c then 1 + numLinesAux false false rest
    else numLinesAux false true rest

/-- Number of lines of a text, as Python `len(text.splitlines())`. -/
def numLines (l : List Char) : Nat := numLinesAux false false l

/-- The complexity weight table of `_estimate_sql_complexity`, in source
order. -/
def complexityFactors : List (String × ℚ) :=
  [("JOIN", 0.5), ("UNION", 0.8), ("CASE", 0.3), ("WITH", 1.0),
   ("WINDOW", 1.2), ("PARTITION BY", 1.0), ("ROW_NUMBER", 0.8), ("RANK", 0.8),
   ("LEAD", 0.9), ("LAG", 0.9), ("RECURSIVE", 2.0), ("PIVOT", 1.5),
   ("UNPIVOT", 1.5), ("MERGE", 1.8), ("CURSOR", 2.5), ("WHILE", 1.5),
   ("IF", 0.4), ("TRY", 1.0), ("CATCH", 1.0), ("RAISERROR", 0.8),
   ("DYNAMIC", 2.0), ("EXEC", 1.2), ("OPENROWSET", 1.8), ("BULK", 1.5)]

/-- Embedding of `_estimate_sql_complexity`: base score 1.0, plus
`occurrences × weight` for every table keyword counted in the uppercased
text, plus `0.7` per literal `"(SELECT"` occurrence, plus flat bonuses
for texts longer than 100 / 500 lines, capped at 10.0. -/
def estimateSqlComplexity (sqlContent : String) : ℚ :=
  let contentUpper := upperL sqlContent.data
  let keywordScore :=
    complexityFactors.foldl
      (fun acc x => acc + (countOcc x.1.data contentUpper : ℚ) * x.2) 1.0
  let subqueryCount := countOcc "(SELECT".data sqlContent.data
  let withSubqueries := keywordScore + (subqueryCount : ℚ) * 0.7
  let lineCount := numLines sqlContent.data
  let withLength := withSubqueries +
    (if 100 < lineCount then (1.0 : ℚ) else 0) +
    (if 500 < lineCount then (2.0 : ℚ) else 0)
  min withLength 10.0

/-- A family of `k` pairwise-disjoint occurrences of the pattern `p`
inside a text (used to reason about the non-overlapping count
`countOcc`). -/
inductive HasDisj (p : List Char) : List Char → Nat → Prop where
  | nil (t : List Char) : HasDisj p t 0
  | cons (c : Char) (t : List Char) (k : Nat) : HasDisj p t k → HasDisj p (c :: t) k
  | hit (t : List Char) (k : Nat) : HasDisj p t k → HasDisj p (p ++ t) (k + 1)

/- ----------------------------------------------------------------- -/
/- PatternTranspiler: `_apply_basic_transformations` and              -/
/- `_generate_simulated_transpilation`                                -/
/- ----------------------------------------------------------------- -/

/-- Whitespace characters of the regex class `\s` (ASCII fragment). -/
def isSpaceRe (c : Char) : Bool :=
  c = ' ' || c = '\t' || c = '\n' || c = '\r' || c = '\x0B' || c = '\x0C'

/-- Word characters of the regex class `\w` (ASCII fragment), used for
`\b` word boundaries. -/
def isWordChar (c : Char) : Bool := c.isAlphanum || c = '_'

/-- Case-insensitive character comparison (`re.IGNORECASE`, ASCII
fragment). -/
def charCI (a b : Char) : Bool := a.toUpper == b.toUpper

/-- Case-insensitive initial-segment test. -/
def startsWithCI : List Char → List Char → Bool
  | [], _ => true
  | _ :: _, [] => false
  | a :: as, b :: bs => charCI a b && startsWithCI as bs

/-- Length of a match of `OP\s+\d+\b` at the start of `t` (the tail of
the pattern `\bTOP\s+(\d+)\b` after its initial `T`), or `none`.  The
regex engine cannot backtrack here: `\s` and `\d` are disjoint, and a
shorter digit run would put the trailing `\b` between two word
characters. -/
def topTailLen (t : List Char) : Option Nat :=
  match t with
  | o :: p :: rest =>
    if o.toUpper == 'O' && p.toUpper == 'P' then
      let ws := (rest.takeWhile isSpaceRe).length
      if ws = 0 then none
      else
        let rest2 := rest.drop ws
        let ds := (rest2.takeWhile Char.isDigit).length
        if ds = 0 then none
        else
          match rest2.drop ds with
          | [] => some (2 + ws + ds)
          | d :: _ => if isWordChar d then none else some (2 + ws + ds)
    else none
  | _ => none

/-- Scan implementing `re.sub(r'\bTOP\s+(\d+)\b', '', …, re.IGNORECASE)`:
every non-overlapping match is deleted, scanning left to right.  `skip`
counts match characters still to be consumed; `prevWord` is the word
status of the previous original character (for the leading `\b`). -/
def subTopAux (skip : Nat) (prevWord : Bool) : List Char → List Char
  | [] => []
  | c :: rest =>
    match skip with
    | s + 1 => subTopAux s (isWordChar c) rest
    | 0 =>
      if !prevWord && c.toUpper == 'T' then
        match topTailLen rest with
        | some n => subTopAux n (isWordChar c) rest
        | none => c :: subTopAux 0 (isWordChar c) rest
      else c :: subTopAux 0 (isWordChar c) rest

/-- The `TOP n` removal pass of `_apply_basic_transformations`. -/
def subTop (l : List Char) : List Char := subTopAux 0 false l

/-- Scan implementing one entry of the function-rename table:
`re.sub(r'\b' + pat, rep, …, re.IGNORECASE)` for a literal pattern
`pat` preceded by a word boundary.  `skip` counts match characters still
to be consumed after a hit (their replacement has already been
emitted). -/
def subBLitAux (pat rep : List Char) (skip : Nat) (prevWord : Bool) : List Char → List Char
  | [] => []
  | c :: rest =>
    match skip with
    | s + 1 => subBLitAux pat rep s (isWordChar c) rest
    | 0 =>
      if !pat.isEmpty && (prevWord != isWordChar c) && startsWithCI pat (c :: rest) then
        rep ++ subBLitAux pat rep (pat.length - 1) (isWordChar c) rest
      else c :: subBLitAux pat rep 0 (isWordChar c) rest

/-- Scan implementing `re.sub(r'\[([^\]]+)\]', r'\1', …)`: every
bracketed group with a non-empty, `]`-free body is replaced by its
body. -/
def subBracketsAux (skip : Nat) : List Char → List Char
  | [] => []
  | c :: rest =>
    match skip with
    | s + 1 => subBracketsAux s rest
    | 0 =>
      if c == '[' then
        let inner := rest.takeWhile (fun d => !(d == ']'))
        match rest.drop inner.length with
        | ']' :: _ =>
          if inner.isEmpty then c :: subBracketsAux 0 rest
          else inner ++ subBracketsAux (inner.length + 1) rest
        | _ => c :: subBracketsAux 0 rest
      else c :: subBracketsAux 0 rest

/-- The identifier-bracket stripping pass. -/
def subBrackets (l : List Char) : List Char := subBracketsAux 0 l

/-- The `transformations` table of `_apply_basic_transformations`, in
source (insertion) order; the final bracket rule is applied separately
by `subBrackets`. -/
def functionTransformations : List (List Char × List Char) :=
  [("GETDATE()".data, "CURRENT_TIMESTAMP()".data),
   ("ISNULL(".data, "COALESCE(".data),
   ("LEN(".data, "LENGTH(".data),
   ("CHARINDEX(".data, "POSITION(".data),
   ("SUBSTRING(".data, "SUBSTR(".data),
   ("DATEDIFF(".data, "DATEDIFF(".data),
   ("CONVERT(".data, "CAST(".data),
   ("[dbo].".data, "".data)]

/-- The function-conversion loop of `_apply_basic_transformations`:
the eight boundary-literal renames in table order, then the bracket
rule. -/
def applyFunctionSubs (t : List Char) : List Char :=
  subBrackets
    (functionTransformations.foldl (fun acc pr => subBLitAux pr.1 pr.2 0 false acc) t)

/-- The trailing row-limit clause appended when the uppercased input
contains the substring `TOP`. -/
def limitClause : List Char := "\nLIMIT 100  -- Converted from TOP clause".data

/-- The provenance header prepended to every fallback transpilation. -/
def headerFor (sourceDialect targetDialect : String) : List Char :=
  ("-- Transpiled from " ++ String.mk (upperL sourceDialect.data) ++
   " to " ++ String.mk (upperL targetDialect.data) ++
   "\n-- Generated by Lakebridge Workshop Fallback Transpiler" ++
   "\n-- Note: This is a simplified transformation for educational purposes" ++
   "\n-- Production transpilation requires Lakebridge or equivalent tools\n\n").data

/-- Embedding of `_apply_basic_transformations`: for the
`tsql → databricks` pair, remove `TOP n` clauses, append the trailing
limit clause whenever the uppercased original contains `TOP`, and run
the rename table; for every other dialect pair the body is passed
through unchanged.  The provenance header is prepended in all cases. -/
def applyBasicTransformations (sql : String) (sourceDialect targetDialect : String) : String :=
  let transformed :=
    if lowerL sourceDialect.data == "tsql".data &&
       lowerL targetDialect.data == "databricks".data then
      let afterTop := subTop sql.data
      let afterLimit :=
        if containsSub "TOP".data (upperL sql.data) then afterTop ++ limitClause
        else afterTop
      applyFunctionSubs afterLimit
    else sql.data
  String.mk (headerFor sourceDialect targetDialect ++ transformed)

/-- The hard-coded `transformations_applied` list that
`_generate_simulated_transpilation` reports for every fallback
transpilation. -/
def simulatedTransformationsList : List String :=
  ["TOP -> LIMIT conversion",
   "GETDATE() -> CURRENT_TIMESTAMP() conversion",
   "ISNULL -> COALESCE conversion",
   "Basic syntax adaptations"]

/-- The fields of the fallback transpilation result relevant to the
canonical `TranspileResult` schema. -/
structure TranspileResult where
  success : Bool
  transpiledSql : String
  method : String
  sourceDialect : String
  targetDialect : String
  transformationsApplied : List String
deriving DecidableEq, Repr

/-- Embedding of the pure core of `_generate_simulated_transpilation`
on a source file whose content was read successfully (the missing-file
and output-write branches are filesystem I/O). -/
def generateSimulatedTranspilation (sourceSql sourceDialect targetDialect : String) :
    TranspileResult :=
  { success := true
    transpiledSql := applyBasicTransformations sourceSql sourceDialect targetDialect
    method := "simulated_fallback"
    sourceDialect := sourceDialect
    targetDialect := targetDialect
    transformationsApplied := simulatedTransformationsList }

/- ----------------------------------------------------------------- -/
/- WaveClassifier and fallback analysis:                              -/
/- `_assign_migration_wave`, `_identify_risk_factors`,                -/
/- `_generate_simulated_analysis`                                     -/
/- ----------------------------------------------------------------- -/

/-- Embedding of `_assign_migration_wave`. -/
def assignMigrationWave (complexity : ℚ) : Nat :=
  if complexity ≤ 4.0 then 1
  else if complexity ≤ 7.0 then 2
  else 3

/-- The risk-pattern table of `_identify_risk_factors`, in source
order. -/
def riskPatterns : List (String × String) :=
  [("CURSOR", "Uses cursors (procedural logic)"),
   ("WHILE", "Contains WHILE loops"),
   ("GOTO", "Uses GOTO statements"),
   ("RAISERROR", "Custom error handling"),
   ("TRY", "Exception handling blocks"),
   ("DYNAMIC", "Dynamic SQL construction"),
   ("OPENROWSET", "External data sources"),
   ("LINKED", "Linked server dependencies"),
   ("BULK", "Bulk operations"),
   ("MERGE", "Complex MERGE statements"),
   ("RECURSIVE", "Recursive CTEs"),
   ("PIVOT", "Pivot operations"),
   ("UNPIVOT", "Unpivot operations")]

/-- Embedding of `_identify_risk_factors`. -/
def identifyRiskFactors (sqlContent : String) : List String :=
  let contentUpper := upperL sqlContent.data
  ((riskPatterns.filter (fun pr => containsSub pr.1.data contentUpper)).map Prod.snd) ++
    (if 5 < countOcc "(SELECT".data sqlContent.data then ["Heavy subquery usage"] else []) ++
    (if 500 < numLines sqlContent.data then ["Very large file size"] else [])

/-- The derived attributes of one analysed file (the `AnalysisUnit` of
the canonical schema). -/
structure FileAnalysis where
  complexityScore : ℚ
  lineCount : Nat
  containsCte : Bool
  containsWindowFunctions : Bool
  containsSubqueries : Bool
  migrationWave : Nat
  estimatedEffortHours : Nat
  riskFactors : List String
deriving DecidableEq, Repr

/-- The per-file record built inside the loop of
`_generate_simulated_analysis`.  Python `int()` truncates toward zero,
which on the nonnegative scores produced here equals the floor. -/
def analyzeFileContent (content : String) : FileAnalysis :=
  let complexity := estimateSqlComplexity content
  { complexityScore := complexity
    lineCount := numLines content.data
    containsCte := containsSub "WITH ".data (upperL content.data)
    containsWindowFunctions :=
      ["ROW_NUMBER(", "RANK(", "DENSE_RANK(", "LAG(", "LEAD("].any
        (fun f => containsSub f.data (upperL content.data))
    containsSubqueries := decide (0 < countOcc "(SELECT".data content.data)
    migrationWave := assignMigrationWave complexity
    estimatedEffortHours := max 1 (Int.toNat ⌊complexity * 2⌋)
    riskFactors := identifyRiskFactors content }

/-- Python-dict insertion on an association list: replace in place when
the key exists, else append (`file_analyses[name] = …`). -/
def dictInsert (k : String) (v : FileAnalysis) (d : List (String × FileAnalysis)) :
    List (String × FileAnalysis) :=
  if d.any (fun kv => kv.1 == k) then
    d.map (fun kv => if kv.1 == k then (k, v) else kv)
  else d ++ [(k, v)]

/-- Round-half-to-even on an exact rational, as Python `round` on an
exactly representable value. -/
def roundHalfEven (x : ℚ) : ℤ :=
  if x - ⌊x⌋ < 1 / 2 then ⌊x⌋
  else if 1 / 2 < x - ⌊x⌋ then ⌊x⌋ + 1
  else if ⌊x⌋ % 2 = 0 then ⌊x⌋ else ⌊x⌋ + 1

/-- Models Python `round(x, 2)`. -/
def roundTo2 (x : ℚ) : ℚ := (roundHalfEven (x * 100) : ℚ) / 100

/-- The fields of the fallback analysis result relevant to the
canonical `AnalysisResult` schema (units, summary statistics and the
wave partition). -/
structure AnalysisResult where
  success : Bool
  method : String
  totalFiles : Nat
  averageComplexity : ℚ
  totalEstimatedEffortHours : Nat
  highComplexityFiles : Nat
  fileAnalysis : List (String × FileAnalysis)
  wave1Files : List String
  wave2Files : List String
  wave3Files : List String
deriving DecidableEq, Repr

/-- Embedding of the pure core of `_generate_simulated_analysis` on a
directory given as a list of `(file name, content)` pairs whose reads
succeed (the missing-directory failure and the `read_text` exception
branch are filesystem I/O).  `file_analyses` is a Python dict keyed by
file name, modelled with `dictInsert`; `total_complexity` accumulates
over ALL globbed files, exactly as the source loop does. -/
def generateSimulatedAnalysis (files : List (String × String)) : AnalysisResult :=
  let fileAnalyses := files.foldl (fun d f => dictInsert f.1 (analyzeFileContent f.2) d) []
  let totalComplexity := files.foldl (fun acc f => acc + estimateSqlComplexity f.2) 0
  let avgComplexity :=
    if files.isEmpty then 0 else totalComplexity / (files.length : ℚ)
  { success := true
    method := "simulated_fallback"
    totalFiles := files.length
    averageComplexity := roundTo2 avgComplexity
    totalEstimatedEffortHours := (fileAnalyses.map (fun kv => kv.2.estimatedEffortHours)).sum
    highComplexityFiles :=
      (fileAnalyses.filter (fun kv => decide ((7.0 : ℚ) < kv.2.complexityScore))).length
    fileAnalysis := fileAnalyses
    wave1Files := (fileAnalyses.filter (fun kv => kv.2.migrationWave == 1)).map Prod.fst
    wave2Files := (fileAnalyses.filter (fun kv => kv.2.migrationWave == 2)).map Prod.fst
    wave3Files := (fileAnalyses.filter (fun kv => kv.2.migrationWave == 3)).map Prod.fst }

/- ----------------------------------------------------------------- -/
/- Adapter: `LakebridgeAdapter.__init__` /                            -/
/- `_check_lakebridge_availability` and the four operations           -/
/- ----------------------------------------------------------------- -/

/-- The mutable fields of a `LakebridgeAdapter` instance, set once by
`__init__` / `_check_lakebridge_availability` and never assigned again
by any operation. -/
structure AdapterState where
  fallbackMode : Bool
  simulateUnavailable : Bool
  lakebridgeAvailable : Bool
  lakebridgeVersion : Option String
  compatibilityStatus : String
  fallbackReason : Option String
deriving DecidableEq, Repr

/-- The construction-time subprocess environment: the outcome of
`databricks --version` (with the exception text when it fails), of
`databricks labs installed` (`none` = timeout) and of
`databricks labs show lakebridge`. -/
structure ProbeEnv where
  cliOk : Bool
  cliErrorMsg : String
  labsOutcome : Option (Nat × String)
  showOutcome : Option (Nat × String)

/-- Python `str.strip()` (whitespace at both ends). -/
def stripL (l : List Char) : List Char :=
  ((l.dropWhile Char.isWhitespace).reverse.dropWhile Char.isWhitespace).reverse

/-- Python `str.split()` with no argument: split on whitespace runs,
discarding empty parts. -/
def pySplitWsAux (cur : List Char) : List Char → List (List Char)
  | [] => if cur.isEmpty then [] else [cur.reverse]
  | c :: rest =>
    if c.isWhitespace then
      if cur.isEmpty then pySplitWsAux [] rest
      else cur.reverse :: pySplitWsAux [] rest
    else pySplitWsAux (c :: cur) rest

/-- Python `str.split()` on a character list. -/
def pySplitWs (l : List Char) : List (List Char) := pySplitWsAux [] l

/-- The per-token acceptance test of `_extract_lakebridge_version`:
`(part.replace('.','').replace('-','').replace('_','').isdigit() or
any(ch.isdigit() for ch in part)) and '.' in part and
len(part.split('.')) >= 2`. -/
def versionTokenOk (part : List Char) : Bool :=
  (let replaced := part.filter (fun c => !(c == '.') && !(c == '-') && !(c == '_'))
   (!replaced.isEmpty && replaced.all Char.isDigit) || part.any Char.isDigit) &&
  (part.any (fun c => c == '.') && 2 ≤ (splitOnChar '.' part).length)

/-- Embedding of `_extract_lakebridge_version`: scan the `labs` output
for the first acceptable dotted token on a line mentioning lakebridge;
otherwise query `databricks labs show lakebridge` and parse a
`key: value` line whose key contains "version"; otherwise report
`"unknown"` (also on any subprocess failure). -/
def extractLakebridgeVersion (labsOutput : String) (env : ProbeEnv) : String :=
  let lines := splitOnChar '\n' (stripL labsOutput.data)
  match lines.findSome? (fun line =>
      if containsSub "lakebridge".data (lowerL line) then
        (pySplitWs line).findSome? (fun part =>
          if versionTokenOk part then some (stripL part) else none)
      else none) with
  | some v => String.mk v
  | none =>
    match env.showOutcome with
    | some (rc, out) =>
      if rc = 0 then
        match (splitOnChar '\n' out.data).findSome? (fun line =>
            if containsSub "version".data (lowerL line) then
              match splitOnChar ':' line with
              | _ :: p2 :: _ => some (String.mk (stripL p2))
              | _ => none
            else none) with
        | some v => v
        | none => "unknown"
      else "unknown"
    | none => "unknown"

/-- Embedding of `__init__` + `_check_lakebridge_availability`: the
adapter state as decided once at construction from the probe
environment. -/
def checkLakebridgeAvailability (fallbackMode simulateUnavailable : Bool)
    (env : ProbeEnv) : AdapterState :=
  if simulateUnavailable then
    { fallbackMode := fallbackMode, simulateUnavailable := simulateUnavailable,
      lakebridgeAvailable := false, lakebridgeVersion := none,
      compatibilityStatus := "unknown",
      fallbackReason := some "Simulated unavailability for testing" }
  else if !env.cliOk then
    { fallbackMode := fallbackMode, simulateUnavailable := simulateUnavailable,
      lakebridgeAvailable := false, lakebridgeVersion := none,
      compatibilityStatus := "unknown",
      fallbackReason := some ("Databricks CLI unavailable: " ++ env.cliErrorMsg) }
  else
    match env.labsOutcome with
    | none =>
      { fallbackMode := fallbackMode, simulateUnavailable := simulateUnavailable,
        lakebridgeAvailable := false, lakebridgeVersion := none,
        compatibilityStatus := "unknown",
        fallbackReason := some "Databricks labs command timeout" }
    | some (rc, out) =>
      if rc = 0 ∧ containsSub "lakebridge".data (lowerL out.data) = true then
        let ver := extractLakebridgeVersion out env
        let compat := checkVersionCompatibility (some ver)
        if compat = "compatible" ∧ fallbackMode = false then
          { fallbackMode := fallbackMode, simulateUnavailable := simulateUnavailable,
            lakebridgeAvailable := true, lakebridgeVersion := some ver,
            compatibilityStatus := compat, fallbackReason := none }
        else
          { fallbackMode := fallbackMode, simulateUnavailable := simulateUnavailable,
            lakebridgeAvailable := false, lakebridgeVersion := some ver,
            compatibilityStatus := compat,
            fallbackReason := some ("Version compatibility: " ++ compat) }
      else
        { fallbackMode := fallbackMode, simulateUnavailable := simulateUnavailable,
          lakebridgeAvailable := false, lakebridgeVersion := none,
          compatibilityStatus := "unknown",
          fallbackReason := some "Lakebridge not installed via databricks labs" }

/-- Per-call outcome of a native subprocess invocation: `ok stdout`
(return code 0) or `fail` (non-zero exit or exception). -/
inductive NativeOutcome where
  | ok (stdout : String)
  | fail
deriving DecidableEq, Repr

/-- Result of `analyze_legacy_sql`: the native shape (`{'success':
True, 'stdout': …, 'method': 'lakebridge_native'}`) or the simulated
fallback shape. -/
inductive AnalyzeResult where
  | native (stdout : String)
  | simulated (r : AnalysisResult)
deriving DecidableEq, Repr

/-- The `method` tag of an analyze result. -/
def AnalyzeResult.method : AnalyzeResult → String
  | .native _ => "lakebridge_native"
  | .simulated _ => "simulated_fallback"

/-- Embedding of `_fallback_analyze`: the `sql_analyzer` module does
not exist in the repository, so the import always fails and the
simulated analysis is produced. -/
def fallbackAnalyze (files : List (String × String)) : AnalyzeResult :=
  .simulated (generateSimulatedAnalysis files)

/-- Embedding of `analyze_legacy_sql` (with `_lakebridge_analyze`
inlined): state is threaded explicitly; the source assigns no adapter
field in either path, so the state is returned unchanged. -/
def analyzeLegacySql (s : AdapterState) (outcome : NativeOutcome)
    (files : List (String × String)) : AnalyzeResult × AdapterState :=
  if s.lakebridgeAvailable && !s.fallbackMode then
    match outcome with
    | .ok out => (.native out, s)
    | .fail => (fallbackAnalyze files, s)
  else (fallbackAnalyze files, s)

/-- Result of `transpile_sql`: native shape or simulated fallback
shape. -/
inductive TranspileCallResult where
  | native (transpiledSql : String)
  | simulated (r : TranspileResult)
deriving DecidableEq, Repr

/-- The `method` tag of a transpile result. -/
def TranspileCallResult.method : TranspileCallResult → String
  | .native _ => "lakebridge_native"
  | .simulated _ => "simulated_fallback"

/-- Embedding of `transpile_sql` (with `_lakebridge_transpile` inlined;
the `sql_transpiler` module does not exist, so the fallback is always
the simulated transpilation). -/
def transpileSqlOp (s : AdapterState) (outcome : NativeOutcome)
    (sourceSql sourceDialect targetDialect : String) :
    TranspileCallResult × AdapterState :=
  if s.lakebridgeAvailable && !s.fallbackMode then
    match outcome with
    | .ok out => (.native out, s)
    | .fail =>
      (.simulated (generateSimulatedTranspilation sourceSql sourceDialect targetDialect), s)
  else (.simulated (generateSimulatedTranspilation sourceSql sourceDialect targetDialect), s)

/-- Result of `test_connection`. -/
structure ConnectionResult where
  success : Bool
  connectionStatus : String
deriving DecidableEq, Repr

/-- Embedding of `test_connection`: the workspace-list call is a
subprocess (`none` = exception). -/
def testConnection (s : AdapterState) (wsOutcome : Option (Nat × String)) :
    ConnectionResult × AdapterState :=
  if !s.lakebridgeAvailable then
    ({ success := false, connectionStatus := "lakebridge_unavailable" }, s)
  else
    match wsOutcome with
    | some (rc, _) =>
      if rc = 0 then ({ success := true, connectionStatus := "connected" }, s)
      else ({ success := false, connectionStatus := "authentication_failed" }, s)
    | none => ({ success := false, connectionStatus := "connection_error" }, s)

/-- Embedding of `_get_recommendations`. -/
def getRecommendations (s : AdapterState) : List String :=
  (if !s.lakebridgeAvailable then
    (if containsSub "databricks cli".data (lowerL (s.fallbackReason.getD "").data) then
      ["Install Databricks CLI: pip install databricks-cli",
       "Configure authentication: databricks configure --token"]
     else if containsSub "not installed".data (lowerL (s.fallbackReason.getD "").data) then
      ["Install Lakebridge: databricks labs install lakebridge"]
     else if containsSub "compatibility".data (lowerL (s.fallbackReason.getD "").data) then
      ["Update Lakebridge to supported version (0.3.0)",
       "Check COMPATIBILITY.md for version requirements"]
     else [])
   else []) ++
  (if s.fallbackMode then
    ["Workshop will use simulated results for learning",
     "All concepts and workflows remain valid"]
   else [])

/-- The record returned by `get_status` (a pure read of the state). -/
structure StatusReport where
  lakebridgeAvailable : Bool
  lakebridgeVersion : Option String
  compatibilityStatus : String
  fallbackMode : Bool
  fallbackReason : Option String
  recommendations : List String
deriving DecidableEq, Repr

/-- Embedding of `get_status`. -/
def getStatus (s : AdapterState) : StatusReport × AdapterState :=
  ({ lakebridgeAvailable := s.lakebridgeAvailable
     lakebridgeVersion := s.lakebridgeVersion
     compatibilityStatus := s.compatibilityStatus
     fallbackMode := s.fallbackMode
     fallbackReason := s.fallbackReason
     recommendations := getRecommendations s }, s)

theorem parseVersion_min_eval : parseVersion SUPPORTED_VERSIONS_minimum = some [0, 1, 0] := by
  decide

theorem parseVersion_max_eval : parseVersion SUPPORTED_VERSIONS_maximum = some [2, 0, 0] := by
  decide

theorem parseVersion_empty : parseVersion "" = none := by decide

theorem parseVersion_unknown : parseVersion "unknown" = none := by decide

/-- A version strictly below the configured minimum is also strictly
below the configured (larger) maximum. -/
theorem verLt_min_imp_max (cur : List Nat) (h : verLt cur [0, 1, 0] = true) :
    verLt cur [2, 0, 0] = true := by
  match cur with
  | [] => decide
  | x :: xs =>
    simp only [verLt] at h ⊢
    by_cases hx : 0 < x
    · simp [Nat.not_lt_zero, hx] at h
    · have hx0 : x = 0 := by omega
      subst hx0
      simp

/-- When the version parses, the result of the compatibility check is
decided purely by the comparison against the configured range. -/
theorem checkVersionCompatibility_of_parsed (s : String) (cur : List Nat)
    (h : parseVersion s = some cur) :
    checkVersionCompatibility (some s) =
      (if verLt cur [0, 1, 0] then "too_old (minimum: 0.1.0)"
       else if verGe cur [2, 0, 0] then "too_new (maximum: 2.0.0)"
       else "compatible") := by
  have hne : ¬(s = "" ∨ s = "unknown") := by
    rintro (rfl | rfl)
    · rw [parseVersion_empty] at h; cases h
    · rw [parseVersion_unknown] at h; cases h
  simp only [checkVersionCompatibility, hne, if_false, h, parseVersion_min_eval,
    parseVersion_max_eval]
  rfl

/-- C1: the compatibility check partitions parsable versions by the
configured range: strictly below the minimum is `too_old`, at or above
the (exclusive) maximum is `too_new`, strictly between is `compatible`;
and on the spec's concrete examples it returns `compatible`, `too_old`,
`too_new` and `parse_error` respectively. -/
theorem C1_classify_partitions_by_range :
    (∀ (s : String) (cur : List Nat), parseVersion s = some cur →
      (verLt cur [0, 1, 0] = true →
        compatClass (checkVersionCompatibility (some s)) = .too_old) ∧
      (verGe cur [2, 0, 0] = true →
        compatClass (checkVersionCompatibility (some s)) = .too_new) ∧
      (verLt cur [0, 1, 0] = false → verLt cur [2, 0, 0] = true →
        compatClass (checkVersionCompatibility (some s)) = .compatible)) ∧
    checkVersionCompatibility (some "0.3.0") = "compatible" ∧
    checkVersionCompatibility (some "0.0.5") = "too_old (minimum: 0.1.0)" ∧
    checkVersionCompatibility (some "2.0.0") = "too_new (maximum: 2.0.0)" ∧
    checkVersionCompatibility (some "not-a-version") = "parse_error" := by
  refine ⟨?_, ?_, ?_, ?_, ?_⟩
  · intro s cur h
    rw [checkVersionCompatibility_of_parsed s cur h]
    refine ⟨?_, ?_, ?_⟩
    · intro hlt
      simp only [hlt, if_true]
      decide
    · intro hge
      have hnlt : verLt cur [0, 1, 0] = false := by
        cases hv : verLt cur [0, 1, 0] with
        | false => rfl
        | true =>
          exfalso
          have h2 := verLt_min_imp_max cur hv
          simp [verGe, h2] at hge
      simp only [hnlt, hge]
      decide
    · intro hnlt hlt
      simp only [hnlt, if_false, verGe, hlt]
      decide
  · decide
  · decide
  · decide
  · decide

/-- Witness for C1 at the concrete version "0.3.0". -/
theorem C1_witness :
    parseVersion "0.3.0" = some [0, 3, 0] ∧
    compatClass (checkVersionCompatibility (some "0.3.0")) = Compatibility.compatible := by
  refine ⟨by decide, ?_⟩
  exact (C1_classify_partitions_by_range.1 "0.3.0" [0, 3, 0] (by decide)).2.2
    (by decide) (by decide)

/-- C2: for every input (absent, malformed or well-formed), the
compatibility check returns exactly one of the five result values;
an absent version maps to the "unknown" value and a malformed,
non-sentinel version string maps to `parse_error`.  (Termination and
"never raises" are expressed by the function being a total Lean
function.) -/
theorem C2_classify_total :
    ∀ (v : Option String),
      (checkVersionCompatibility v = "unknown_version" ∨
       checkVersionCompatibility v = "parse_error" ∨
       checkVersionCompatibility v = "compatible" ∨
       checkVersionCompatibility v = "too_old (minimum: 0.1.0)" ∨
       checkVersionCompatibility v = "too_new (maximum: 2.0.0)") ∧
      (v = none → checkVersionCompatibility v = "unknown_version") ∧
      (∀ s, v = some s → s ≠ "" → s ≠ "unknown" → parseVersion s = none →
        checkVersionCompatibility v = "parse_error") := by
  intro v
  cases v with
  | none =>
    refine ⟨Or.inl rfl, fun _ => rfl, ?_⟩
    intro s hs
    cases hs
  | some s =>
    by_cases hu : s = "" ∨ s = "unknown"
    · refine ⟨?_, ?_, ?_⟩
      · left
        simp only [checkVersionCompatibility]
        rw [if_pos hu]
      · intro h; cases h
      · intro s' hs' h1 h2 _
        cases hs'
        rcases hu with rfl | rfl
        · exact absurd rfl h1
        · exact absurd rfl h2
    · refine ⟨?_, ?_, ?_⟩
      · cases hp : parseVersion s with
        | none =>
          right; left
          simp only [checkVersionCompatibility]
          rw [if_neg hu]
          simp only [hp, parseVersion_min_eval, parseVersion_max_eval]
        | some cur =>
          rw [checkVersionCompatibility_of_parsed s cur hp]
          split_ifs with h1 h2
          · right; right; right; left; rfl
          · right; right; right; right; rfl
          · right; right; left; rfl
      · intro h; cases h
      · intro s' hs' _ _ hp
        cases hs'
        simp only [checkVersionCompatibility]
        rw [if_neg hu]
        simp only [hp, parseVersion_min_eval, parseVersion_max_eval]

/-- Witness for C2 at the concrete malformed input "not-a-version". -/
theorem C2_witness :
    checkVersionCompatibility (some "not-a-version") = "parse_error" :=
  (C2_classify_total (some "not-a-version")).2.2 "not-a-version" rfl
    (by decide) (by decide) (by decide)

theorem startsWithL_iff (p : List Char) :
    ∀ t, startsWithL p t = true ↔ ∃ u, t = p ++ u := by
  induction p with
  | nil =>
    intro t
    simp [startsWithL]
  | cons a as ih =>
    intro t
    cases t with
    | nil => simp [startsWithL]
    | cons b bs =>
      simp only [startsWithL, Bool.and_eq_true, beq_iff_eq, ih bs, List.cons_append]
      constructor
      · rintro ⟨rfl, u, rfl⟩
        exact ⟨u, rfl⟩
      · rintro ⟨u, h⟩
        cases h
        exact ⟨rfl, u, rfl⟩

theorem countOcc_nil_pat : ∀ t, countOcc [] t = 0 := by
  intro t
  induction t with
  | nil => simp [countOcc]
  | cons c t' ih => simp [countOcc, ih]

theorem HasDisj.mono {p t k} (h : HasDisj p t k) : ∀ j, j ≤ k → HasDisj p t j := by
  induction h with
  | nil t =>
    intro j hj
    have : j = 0 := Nat.le_zero.mp hj
    subst this
    exact HasDisj.nil t
  | cons c t k _ ih =>
    intro j hj
    exact HasDisj.cons c t j (ih j hj)
  | hit t k _ ih =>
    intro j hj
    cases j with
    | zero => exact HasDisj.nil _
    | succ j' => exact HasDisj.hit t j' (ih j' (by omega))

theorem hasDisj_inv {p t k} (h : HasDisj p t k) :
    k = 0 ∨ (∃ c t', t = c :: t' ∧ HasDisj p t' k) ∨
      (∃ t₀ k', t = p ++ t₀ ∧ k = k' + 1 ∧ HasDisj p t₀ k') := by
  cases h with
  | nil t => exact Or.inl rfl
  | cons c t k h' => exact Or.inr (Or.inl ⟨c, t, rfl, h'⟩)
  | hit t k h' => exact Or.inr (Or.inr ⟨t, k, rfl, rfl, h'⟩)

theorem HasDisj.prependL {p t k} (u : List Char) (h : HasDisj p t k) :
    HasDisj p (u ++ t) k := by
  induction u with
  | nil => exact h
  | cons c u' ih => exact HasDisj.cons c _ _ ih

theorem HasDisj.appendR {p t k} (u : List Char) (h : HasDisj p t k) :
    HasDisj p (t ++ u) k := by
  induction h with
  | nil t => exact HasDisj.nil _
  | cons c t k _ ih => exact HasDisj.cons c _ _ ih
  | hit t k _ ih =>
    rw [List.append_assoc]
    exact HasDisj.hit _ _ ih

theorem HasDisj.dropped {p t k} (h : HasDisj p t k) :
    ∀ m, m ≤ p.length → HasDisj p (t.drop m) (k - 1) := by
  induction h with
  | nil t =>
    intro m _
    exact HasDisj.nil _
  | cons c t k h ih =>
    intro m hm
    cases m with
    | zero => exact (HasDisj.cons c t k h).mono (k - 1) (by omega)
    | succ m' => exact ih m' (by omega)
  | hit t k h _ =>
    intro m hm
    have hdrop : (p ++ t).drop m = p.drop m ++ t := by
      rw [List.drop_append_eq_append_drop]
      have : m - p.length = 0 := by omega
      rw [this, List.drop_zero]
    rw [hdrop]
    have : k + 1 - 1 = k := by omega
    rw [this]
    exact h.prependL (p.drop m)

theorem le_countOcc_of_hasDisj (p : List Char) (hp : p ≠ []) :
    ∀ (t : List Char) (k : Nat), HasDisj p t k → k ≤ countOcc p t := by
  have hpe : p.isEmpty = false := by
    cases p with
    | nil => exact absurd rfl hp
    | cons a as => rfl
  have key : ∀ n t k, t.length ≤ n → HasDisj p t k → k ≤ countOcc p t := by
    intro n
    induction n with
    | zero =>
      intro t k hlen h
      have ht : t = [] := List.eq_nil_of_length_eq_zero (by omega)
      subst ht
      rcases hasDisj_inv h with rfl | ⟨c, t', ht', _⟩ | ⟨t₀, k', ht₀, _, _⟩
      · exact Nat.zero_le _
      · cases ht'
      · exact absurd (List.append_eq_nil.mp ht₀.symm).1 hp
    | succ n ih =>
      intro t k hlen h
      cases t with
      | nil =>
        rcases hasDisj_inv h with rfl | ⟨c, t', ht', _⟩ | ⟨t₀, k', ht₀, _, _⟩
        · exact Nat.zero_le _
        · cases ht'
        · exact absurd (List.append_eq_nil.mp ht₀.symm).1 hp
      | cons c t' =>
        have hlen' : t'.length ≤ n := by
          simp only [List.length_cons] at hlen
          omega
        by_cases hs : startsWithL p (c :: t') = true
        · have hco : countOcc p (c :: t') = 1 + countOcc p (t'.drop (p.length - 1)) := by
            rw [countOcc]
            rw [if_pos (by rw [hpe, hs]; rfl)]
          have hdrop := h.dropped p.length le_rfl
          have heq : (c :: t').drop p.length = t'.drop (p.length - 1) := by
            cases p with
            | nil => exact absurd rfl hp
            | cons a as => simp [List.drop]
          rw [heq] at hdrop
          have hlen2 : (t'.drop (p.length - 1)).length ≤ n := by
            simp only [List.length_drop]
            omega
          have hrec := ih _ (k - 1) hlen2 hdrop
          omega
        · rw [Bool.not_eq_true] at hs
          have hco : countOcc p (c :: t') = countOcc p t' := by
            rw [countOcc]
            rw [if_neg (by rw [hs]; simp)]
          rw [hco]
          rcases hasDisj_inv h with rfl | ⟨c₂, t₂, ht₂, h₂⟩ | ⟨t₀, k', ht₀, _, _⟩
          · exact Nat.zero_le _
          · cases ht₂
            exact ih t' k hlen' h₂
          · exfalso
            have : startsWithL p (c :: t') = true :=
              (startsWithL_iff p (c :: t')).mpr ⟨t₀, ht₀⟩
            rw [hs] at this
            cases this
  intro t k h
  exact key t.length t k le_rfl h

theorem hasDisj_self (p : List Char) (hp : p ≠ []) :
    ∀ t, HasDisj p t (countOcc p t) := by
  have hpe : p.isEmpty = false := by
    cases p with
    | nil => exact absurd rfl hp
    | cons a as => rfl
  have key : ∀ n t, t.length ≤ n → HasDisj p t (countOcc p t) := by
    intro n
    induction n with
    | zero =>
      intro t hlen
      have ht : t = [] := List.eq_nil_of_length_eq_zero (by omega)
      subst ht
      rw [countOcc]
      exact HasDisj.nil _
    | succ n ih =>
      intro t hlen
      cases t with
      | nil =>
        rw [countOcc]
        exact HasDisj.nil _
      | cons c t' =>
        have hlen' : t'.length ≤ n := by
          simp only [List.length_cons] at hlen
          omega
        by_cases hs : startsWithL p (c :: t') = true
        · obtain ⟨u, hu⟩ := (startsWithL_iff p (c :: t')).mp hs
          have hco : countOcc p (c :: t') = 1 + countOcc p (t'.drop (p.length - 1)) := by
            rw [countOcc]
            rw [if_pos (by rw [hpe, hs]; rfl)]
          have heq : t'.drop (p.length - 1) = u := by
            have h1 : (c :: t').drop p.length = u := by
              rw [hu, List.drop_left]
            rw [← h1]
            cases p with
            | nil => exact absurd rfl hp
            | cons a as => simp [List.drop]
          have hlen2 : (t'.drop (p.length - 1)).length ≤ n := by
            simp only [List.length_drop]
            omega
          have hrec := ih _ hlen2
          rw [heq] at hrec
          rw [hco, hu, heq]
          have hhit := HasDisj.hit u (countOcc p u) hrec
          have harith : countOcc p u + 1 = 1 + countOcc p u := by omega
          rw [harith] at hhit
          exact hhit
        · rw [Bool.not_eq_true] at hs
          have hco : countOcc p (c :: t') = countOcc p t' := by
            rw [countOcc]
            rw [if_neg (by rw [hs]; simp)]
          rw [hco]
          exact HasDisj.cons c t' _ (ih t' hlen')
  intro t
  exact key t.length t le_rfl

/-- Appending text never decreases the non-overlapping occurrence
count. -/
theorem countOcc_le_append (p t u : List Char) :
    countOcc p t ≤ countOcc p (t ++ u) := by
  by_cases hp : p = []
  · subst hp
    rw [countOcc_nil_pat, countOcc_nil_pat]
  · exact le_countOcc_of_hasDisj p hp (t ++ u) _ ((hasDisj_self p hp t).appendR u)

theorem hasDisj_of_suffix_pattern {q t k} (p u : List Char) (hq : q = u ++ p)
    (h : HasDisj q t k) : HasDisj p t k := by
  induction h with
  | nil t => exact HasDisj.nil _
  | cons c t k _ ih => exact HasDisj.cons c _ _ ih
  | hit t k _ ih =>
    subst hq
    rw [List.append_assoc]
    exact (HasDisj.hit t k ih).prependL u

/-- Every family of occurrences of a longer pattern `u ++ p` yields at
least as many occurrences of its tail `p`, so the count of `p` dominates
the count of `u ++ p`. -/
theorem countOcc_suffix_le (p u t : List Char) (hp : p ≠ []) :
    countOcc (u ++ p) t ≤ countOcc p t := by
  have hq : u ++ p ≠ [] := by
    intro h
    exact hp (List.append_eq_nil.mp h).2
  exact le_countOcc_of_hasDisj p hp t _
    (hasDisj_of_suffix_pattern p u rfl (hasDisj_self (u ++ p) hq t))

theorem one_le_numLinesAux_inLine : ∀ u, 1 ≤ numLinesAux false true u := by
  intro u
  induction u with
  | nil => simp [numLinesAux]
  | cons c rest ih =>
    rw [numLinesAux]
    simp only [Bool.false_and, Bool.false_eq_true, if_false]
    split_ifs
    · omega
    · omega
    · exact ih

theorem numLinesAux_le_append :
    ∀ (t u : List Char) (a i : Bool), (i = true → a = false) →
      numLinesAux a i t ≤ numLinesAux a i (t ++ u) := by
  intro t
  induction t with
  | nil =>
    intro u a i hinv
    cases i with
    | false => simp [numLinesAux]
    | true =>
      rw [hinv rfl]
      simpa [numLinesAux] using one_le_numLinesAux_inLine u
  | cons c t' ih =>
    intro u a i hinv
    rw [List.cons_append, numLinesAux, numLinesAux]
    split_ifs
    · exact ih u false false (by simp)
    · exact Nat.add_le_add_left (ih u true false (by simp)) 1
    · exact Nat.add_le_add_left (ih u false false (by simp)) 1
    · exact ih u false true (fun _ => rfl)

theorem numLines_le_append (t u : List Char) : numLines t ≤ numLines (t ++ u) :=
  numLinesAux_le_append t u false false (by simp)

theorem complexityFactors_nonneg : ∀ x ∈ complexityFactors, 0 ≤ x.2 := by
  intro x hx
  fin_cases hx <;> norm_num

theorem factors_foldl_init_le (L : List (String × ℚ)) (hw : ∀ x ∈ L, 0 ≤ x.2)
    (U : List Char) (a : ℚ) :
    a ≤ L.foldl (fun acc x => acc + (countOcc x.1.data U : ℚ) * x.2) a := by
  induction L generalizing a with
  | nil => simp
  | cons y L' ih =>
    simp only [List.foldl_cons]
    refine le_trans ?_ (ih (fun x hx => hw x (List.mem_cons_of_mem y hx)) _)
    have h0 : (0 : ℚ) ≤ (countOcc y.1.data U : ℚ) * y.2 :=
      mul_nonneg (by positivity) (hw y (List.mem_cons_self y L'))
    linarith

theorem factors_foldl_mono (L : List (String × ℚ)) (hw : ∀ x ∈ L, 0 ≤ x.2)
    (U V : List Char) (hUV : ∀ q : List Char, countOcc q U ≤ countOcc q V)
    (a b : ℚ) (hab : a ≤ b) :
    L.foldl (fun acc x => acc + (countOcc x.1.data U : ℚ) * x.2) a ≤
      L.foldl (fun acc x => acc + (countOcc x.1.data V : ℚ) * x.2) b := by
  induction L generalizing a b with
  | nil => simpa
  | cons y L' ih =>
    simp only [List.foldl_cons]
    refine ih (fun x hx => hw x (List.mem_cons_of_mem y hx)) _ _ ?_
    have h1 : (countOcc y.1.data U : ℚ) ≤ countOcc y.1.data V :=
      Nat.cast_le.mpr (hUV _)
    have h2 : 0 ≤ y.2 := hw y (List.mem_cons_self y L')
    have h3 := mul_le_mul_of_nonneg_right h1 h2
    linarith

/-- C3: for every input text, the complexity score lies in the closed
interval `[1.0, 10.0]`: it never falls below the base score and is
clamped at 10. -/
theorem C3_score_in_unit_interval :
    ∀ (text : String),
      1 ≤ estimateSqlComplexity text ∧ estimateSqlComplexity text ≤ 10 := by
  intro text
  constructor
  · simp only [estimateSqlComplexity]
    apply le_min _ (by norm_num)
    have h1 : (1.0 : ℚ) ≤ complexityFactors.foldl
        (fun acc x => acc + (countOcc x.1.data (upperL text.data) : ℚ) * x.2) 1.0 :=
      factors_foldl_init_le complexityFactors complexityFactors_nonneg _ 1.0
    have h2 : (0 : ℚ) ≤ (countOcc "(SELECT".data text.data : ℚ) * 0.7 := by positivity
    have h3 : (0 : ℚ) ≤ (if 100 < numLines text.data then (1.0 : ℚ) else 0) := by
      split_ifs <;> norm_num
    have h4 : (0 : ℚ) ≤ (if 500 < numLines text.data then (2.0 : ℚ) else 0) := by
      split_ifs <;> norm_num
    have h10 : (1 : ℚ) ≤ 1.0 := by norm_num
    linarith
  · simp only [estimateSqlComplexity]
    exact le_trans (min_le_right _ _) (by norm_num)

/-- The complexity score is monotone under appending text on the right:
all counted quantities (keyword occurrences, subquery occurrences, line
count) can only grow. -/
theorem estimateSqlComplexity_le_append (t u : String) :
    estimateSqlComplexity t ≤ estimateSqlComplexity (t ++ u) := by
  have hdata : (t ++ u).data = t.data ++ u.data := String.data_append t u
  simp only [estimateSqlComplexity]
  apply min_le_min _ le_rfl
  have hupper : upperL (t ++ u).data = upperL t.data ++ upperL u.data := by
    rw [hdata]
    simp [upperL]
  have hfold := factors_foldl_mono complexityFactors complexityFactors_nonneg
    (upperL t.data) (upperL (t ++ u).data)
    (fun q => by rw [hupper]; exact countOcc_le_append q _ _) 1.0 1.0 le_rfl
  have hsubq : (countOcc "(SELECT".data t.data : ℚ) * 0.7 ≤
      (countOcc "(SELECT".data (t ++ u).data : ℚ) * 0.7 := by
    have hc : countOcc "(SELECT".data t.data ≤ countOcc "(SELECT".data (t ++ u).data := by
      rw [hdata]
      exact countOcc_le_append _ _ _
    exact mul_le_mul_of_nonneg_right (Nat.cast_le.mpr hc) (by norm_num)
  have hlines : numLines t.data ≤ numLines (t ++ u).data := by
    rw [hdata]
    exact numLines_le_append _ _
  have hif1 : (if 100 < numLines t.data then (1.0 : ℚ) else 0) ≤
      (if 100 < numLines (t ++ u).data then (1.0 : ℚ) else 0) := by
    split_ifs with h1 h2
    · exact le_refl _
    · omega
    · norm_num
    · exact le_refl _
  have hif2 : (if 500 < numLines t.data then (2.0 : ℚ) else 0) ≤
      (if 500 < numLines (t ++ u).data then (2.0 : ℚ) else 0) := by
    split_ifs with h1 h2
    · exact le_refl _
    · omega
    · norm_num
    · exact le_refl _
  linarith

/-- C4: the score is monotone non-decreasing in keyword occurrences
(appending another occurrence of any weighted keyword never decreases
the score), and it is a deterministic function of the text. -/
theorem C4_score_monotone_deterministic :
    (∀ (text kw : String) (w : ℚ), (kw, w) ∈ complexityFactors →
      estimateSqlComplexity text ≤ estimateSqlComplexity (text ++ kw)) ∧
    (∀ (t1 t2 : String), t1 = t2 →
      estimateSqlComplexity t1 = estimateSqlComplexity t2) := by
  constructor
  · intro text kw w _
    exact estimateSqlComplexity_le_append text kw
  · intro t1 t2 h
    rw [h]

/-- Witness for C4: appending one more `"JOIN"` to a small text does not
decrease its score. -/
theorem C4_witness :
    ("JOIN", (0.5 : ℚ)) ∈ complexityFactors ∧
    estimateSqlComplexity "SELECT * FROM a JOIN b" ≤
      estimateSqlComplexity ("SELECT * FROM a JOIN b" ++ "JOIN") :=
  ⟨List.mem_cons_self _ _,
   C4_score_monotone_deterministic.1 "SELECT * FROM a JOIN b" "JOIN" 0.5
     (List.mem_cons_self _ _)⟩

set_option maxRecDepth 8192 in
/-- C10: keyword weighting counts raw case-insensitive substring
occurrences, not standalone tokens: every `DENSE_RANK` occurrence also
counts as a `RANK` occurrence (the `RANK` count always dominates the
`DENSE_RANK` count), and the keyword-free word `NOTIFY` (which embeds
`IF`) scores `1.4`, strictly above the base score `1.0`. -/
theorem C10_embedded_substring_counting :
    (∀ (t : String),
      countOcc "DENSE_RANK".data (upperL t.data) ≤
        countOcc "RANK".data (upperL t.data)) ∧
    estimateSqlComplexity "NOTIFY" = 7 / 5 ∧
    (1 : ℚ) < estimateSqlComplexity "NOTIFY" ∧
    countOcc "RANK".data (upperL "SELECT DENSE_RANK() FROM T".data) = 1 := by
  have heval : estimateSqlComplexity "NOTIFY" = 7 / 5 := by
    have hup : upperL "NOTIFY".data = "NOTIFY".data := by decide
    have hnl : numLines "NOTIFY".data = 1 := by decide
    have hL : ("IF".length - 1) = 1 := by decide
    simp only [estimateSqlComplexity, complexityFactors, hup, hnl]
    simp +decide [countOcc, startsWithL, hL]
    norm_num [min_def]
  refine ⟨?_, heval, by rw [heval]; norm_num, ?_⟩
  · intro t
    have hq : "DENSE_RANK".data = "DENSE_".data ++ "RANK".data := by decide
    rw [hq]
    exact countOcc_suffix_le "RANK".data "DENSE_".data _ (by decide)
  · have hup2 : upperL "SELECT DENSE_RANK() FROM T".data =
        "SELECT DENSE_RANK() FROM T".data := by decide
    rw [hup2]
    simp [countOcc, startsWithL]

/-- Counterexample to C5 as stated: for the non-tsql pair
`(oracle, databricks)` the fallback transpile does NOT return the input
text unchanged (a provenance header is prepended) and the
`transformations_applied` list is NOT empty (it is a hard-coded
four-entry list). -/
theorem C5_counterexample :
    (generateSimulatedTranspilation "SELECT 1" "oracle" "databricks").transpiledSql ≠
      "SELECT 1" ∧
    (generateSimulatedTranspilation "SELECT 1" "oracle" "databricks").transformationsApplied ≠
      [] := by
  constructor
  · decide
  · decide

/-- C5 (amended): for every dialect pair other than tsql→databricks the
fallback transpile is a success whose output is exactly the provenance
header followed by the input text unchanged, and whose
`transformations_applied` list is the hard-coded constant list (not
empty). -/
theorem C5_other_pairs_passthrough_under_header :
    ∀ (sql srcD tgtD : String),
      ¬(lowerL srcD.data = "tsql".data ∧ lowerL tgtD.data = "databricks".data) →
      (generateSimulatedTranspilation sql srcD tgtD).success = true ∧
      (generateSimulatedTranspilation sql srcD tgtD).transpiledSql =
        String.mk (headerFor srcD tgtD ++ sql.data) ∧
      (generateSimulatedTranspilation sql srcD tgtD).transformationsApplied =
        simulatedTransformationsList := by
  intro sql srcD tgtD h
  have hcond : (lowerL srcD.data == "tsql".data &&
      lowerL tgtD.data == "databricks".data) = false := by
    cases hb : (lowerL srcD.data == "tsql".data &&
        lowerL tgtD.data == "databricks".data) with
    | false => rfl
    | true =>
      exfalso
      apply h
      simpa [Bool.and_eq_true, beq_iff_eq] using hb
  refine ⟨rfl, ?_, rfl⟩
  simp only [generateSimulatedTranspilation, applyBasicTransformations, hcond,
    Bool.false_eq_true, if_false]

/-- Witness for the amended C5 at the concrete pair (oracle,
databricks). -/
theorem C5_witness :
    (generateSimulatedTranspilation "SELECT 1" "oracle" "databricks").transpiledSql =
      String.mk (headerFor "oracle" "databricks" ++ "SELECT 1".data) :=
  (C5_other_pairs_passthrough_under_header "SELECT 1" "oracle" "databricks"
    (by decide)).2.1

set_option maxRecDepth 65536 in
/-- Counterexample to C6 as stated: on the input `"hello"` (tsql →
databricks) no substitution rule changes the text — the output body is
the input unchanged — yet `transformations_applied` still lists four
rule names instead of being empty. -/
theorem C6_counterexample :
    (generateSimulatedTranspilation "hello" "tsql" "databricks").transpiledSql =
      String.mk (headerFor "tsql" "databricks" ++ "hello".data) ∧
    (generateSimulatedTranspilation "hello" "tsql" "databricks").transformationsApplied ≠
      [] := by
  constructor
  · decide
  · decide

/-- C6 (amended): the `transformations_applied` list of a fallback
transpilation is a hard-coded four-entry constant, independent of the
input text, the dialect pair, and of which substitutions actually
changed the text. -/
theorem C6_transformations_list_constant :
    ∀ (sql srcD tgtD : String),
      (generateSimulatedTranspilation sql srcD tgtD).transformationsApplied =
        ["TOP -> LIMIT conversion",
         "GETDATE() -> CURRENT_TIMESTAMP() conversion",
         "ISNULL -> COALESCE conversion",
         "Basic syntax adaptations"] :=
  fun _ _ _ => rfl

theorem nodup_keys_inj :
    ∀ (l : List (String × FileAnalysis)), (l.map Prod.fst).Nodup →
      ∀ kv ∈ l, ∀ kv2 ∈ l, kv.1 = kv2.1 → kv = kv2 := by
  intro l
  induction l with
  | nil =>
    intro _ kv hkv
    cases hkv
  | cons x xs ih =>
    intro hnd kv hkv kv2 hkv2 heq
    simp only [List.map_cons, List.nodup_cons] at hnd
    rcases List.mem_cons.mp hkv with rfl | hkv' <;>
      rcases List.mem_cons.mp hkv2 with rfl | hkv2'
    · rfl
    · exfalso
      exact hnd.1 (heq ▸ List.mem_map_of_mem Prod.fst hkv2')
    · exfalso
      exact hnd.1 (heq ▸ List.mem_map_of_mem Prod.fst hkv')
    · exact ih hnd.2 kv hkv' kv2 hkv2' heq

theorem mem_filterMapFst (l : List (String × FileAnalysis))
    (hnd : (l.map Prod.fst).Nodup) (f : (String × FileAnalysis) → Bool)
    (kv : String × FileAnalysis) (hkv : kv ∈ l) :
    kv.1 ∈ (l.filter f).map Prod.fst ↔ f kv = true := by
  constructor
  · intro hmem
    obtain ⟨kv2, hkv2, heq⟩ := List.mem_map.mp hmem
    have hkv2l := List.mem_filter.mp hkv2
    have : kv2 = kv := nodup_keys_inj l hnd kv2 hkv2l.1 kv hkv heq
    rw [← this]
    exact hkv2l.2
  · intro hf
    exact List.mem_map_of_mem Prod.fst (List.mem_filter.mpr ⟨hkv, hf⟩)

theorem dictFold_gen :
    ∀ (files : List (String × String)) (d : List (String × FileAnalysis)),
      (files.map Prod.fst).Nodup →
      (∀ f ∈ files, ∀ kv ∈ d, kv.1 ≠ f.1) →
      files.foldl (fun d f => dictInsert f.1 (analyzeFileContent f.2) d) d =
        d ++ files.map (fun f => (f.1, analyzeFileContent f.2)) := by
  intro files
  induction files with
  | nil =>
    intro d _ _
    simp
  | cons f fs ih =>
    intro d hnd hdisj
    rw [List.foldl_cons]
    have hnotin : (d.any (fun kv => kv.1 == f.1)) = false := by
      cases hb : d.any (fun kv => kv.1 == f.1) with
      | false => rfl
      | true =>
        exfalso
        obtain ⟨kv, hkv, hbeq⟩ := List.any_eq_true.mp hb
        exact hdisj f (List.mem_cons_self f fs) kv hkv (eq_of_beq hbeq)
    have hstep : dictInsert f.1 (analyzeFileContent f.2) d =
        d ++ [(f.1, analyzeFileContent f.2)] := by
      rw [dictInsert, if_neg (by rw [hnotin]; simp)]
    rw [hstep]
    simp only [List.map_cons, List.nodup_cons] at hnd
    have hdisj' : ∀ g ∈ fs, ∀ kv ∈ d ++ [(f.1, analyzeFileContent f.2)], kv.1 ≠ g.1 := by
      intro g hg kv hkv
      rcases List.mem_append.mp hkv with hkv1 | hkv2
      · exact hdisj g (List.mem_cons_of_mem f hg) kv hkv1
      · have hkvf : kv = (f.1, analyzeFileContent f.2) := by simpa using hkv2
        subst hkvf
        intro hC
        exact hnd.1 (hC ▸ List.mem_map_of_mem Prod.fst hg)
    rw [ih (d ++ [(f.1, analyzeFileContent f.2)]) hnd.2 hdisj']
    simp

theorem dictFold_eq_map (files : List (String × String))
    (hnd : (files.map Prod.fst).Nodup) :
    files.foldl (fun d f => dictInsert f.1 (analyzeFileContent f.2) d) [] =
      files.map (fun f => (f.1, analyzeFileContent f.2)) := by
  have h := dictFold_gen files [] hnd (by intro f _ kv hkv; cases hkv)
  simpa using h

theorem foldl_add_eq_sum (g : (String × String) → ℚ) :
    ∀ (l : List (String × String)) (a : ℚ),
      l.foldl (fun acc f => acc + g f) a = a + (l.map g).sum := by
  intro l
  induction l with
  | nil =>
    intro a
    simp
  | cons f fs ih =>
    intro a
    rw [List.foldl_cons, ih, List.map_cons, List.sum_cons]
    ring

theorem assignMigrationWave_cases (c : ℚ) :
    assignMigrationWave c = 1 ∨ assignMigrationWave c = 2 ∨ assignMigrationWave c = 3 := by
  rw [assignMigrationWave]
  split_ifs
  · exact Or.inl rfl
  · exact Or.inr (Or.inl rfl)
  · exact Or.inr (Or.inr rfl)

/-- C8: for every successful fallback analysis over files with distinct
names, the summary statistics are reductions of the units sequence
(`fileAnalysis`), every unit's wave is one of 1/2/3, and each unit's
name appears in a wave bucket exactly when its wave has that number — so
the three buckets form a total partition of the units. -/
theorem C8_summary_and_partition :
    ∀ (files : List (String × String)), (files.map Prod.fst).Nodup →
      (generateSimulatedAnalysis files).success = true ∧
      (generateSimulatedAnalysis files).totalFiles =
        (generateSimulatedAnalysis files).fileAnalysis.length ∧
      (generateSimulatedAnalysis files).averageComplexity =
        roundTo2 (if (generateSimulatedAnalysis files).fileAnalysis.isEmpty then 0
          else ((generateSimulatedAnalysis files).fileAnalysis.map
              (fun kv => kv.2.complexityScore)).sum /
            ((generateSimulatedAnalysis files).fileAnalysis.length : ℚ)) ∧
      (generateSimulatedAnalysis files).totalEstimatedEffortHours =
        ((generateSimulatedAnalysis files).fileAnalysis.map
          (fun kv => kv.2.estimatedEffortHours)).sum ∧
      (generateSimulatedAnalysis files).highComplexityFiles =
        ((generateSimulatedAnalysis files).fileAnalysis.filter
          (fun kv => decide ((7.0 : ℚ) < kv.2.complexityScore))).length ∧
      ∀ kv ∈ (generateSimulatedAnalysis files).fileAnalysis,
        (kv.2.migrationWave = 1 ∨ kv.2.migrationWave = 2 ∨ kv.2.migrationWave = 3) ∧
        (kv.1 ∈ (generateSimulatedAnalysis files).wave1Files ↔ kv.2.migrationWave = 1) ∧
        (kv.1 ∈ (generateSimulatedAnalysis files).wave2Files ↔ kv.2.migrationWave = 2) ∧
        (kv.1 ∈ (generateSimulatedAnalysis files).wave3Files ↔ kv.2.migrationWave = 3) := by
  intro files hnd
  have hfa : (generateSimulatedAnalysis files).fileAnalysis =
      files.map (fun f => (f.1, analyzeFileContent f.2)) := by
    have h0 : (generateSimulatedAnalysis files).fileAnalysis =
        files.foldl (fun d f => dictInsert f.1 (analyzeFileContent f.2) d) [] := rfl
    rw [h0, dictFold_eq_map files hnd]
  have hkeys : ((generateSimulatedAnalysis files).fileAnalysis.map Prod.fst).Nodup := by
    rw [hfa, List.map_map]
    have : (Prod.fst ∘ fun f : String × String => (f.1, analyzeFileContent f.2)) =
        Prod.fst := by
      funext f
      rfl
    rw [this]
    exact hnd
  refine ⟨rfl, ?_, ?_, rfl, rfl, ?_⟩
  · rw [hfa]
    have h0 : (generateSimulatedAnalysis files).totalFiles = files.length := rfl
    rw [h0, List.length_map]
  · have h0 : (generateSimulatedAnalysis files).averageComplexity =
        roundTo2 (if files.isEmpty then 0
          else files.foldl (fun acc f => acc + estimateSqlComplexity f.2) 0 /
            (files.length : ℚ)) := rfl
    rw [h0, hfa]
    congr 1
    have hsum : files.foldl (fun acc f => acc + estimateSqlComplexity f.2) 0 =
        ((files.map (fun f => (f.1, analyzeFileContent f.2))).map
          (fun kv => kv.2.complexityScore)).sum := by
      rw [List.map_map]
      have hcomp : ((fun kv : String × FileAnalysis => kv.2.complexityScore) ∘
          fun f : String × String => (f.1, analyzeFileContent f.2)) =
          fun f : String × String => estimateSqlComplexity f.2 := by
        funext f
        rfl
      rw [hcomp]
      have := foldl_add_eq_sum (fun f => estimateSqlComplexity f.2) files 0
      rw [this, zero_add]
    rw [hsum]
    simp [List.isEmpty_iff, List.length_map]
  · intro kv hkv
    have hwave : kv.2.migrationWave = 1 ∨ kv.2.migrationWave = 2 ∨ kv.2.migrationWave = 3 := by
      rw [hfa] at hkv
      obtain ⟨f, _, hf⟩ := List.mem_map.mp hkv
      have hkvw : kv.2.migrationWave = assignMigrationWave (estimateSqlComplexity f.2) := by
        rw [← hf]
        rfl
      rw [hkvw]
      exact assignMigrationWave_cases _
    refine ⟨hwave, ?_, ?_, ?_⟩
    · have h1 : (generateSimulatedAnalysis files).wave1Files =
          ((generateSimulatedAnalysis files).fileAnalysis.filter
            (fun kv => kv.2.migrationWave == 1)).map Prod.fst := rfl
      rw [h1, mem_filterMapFst _ hkeys _ kv hkv]
      simp
    · have h2 : (generateSimulatedAnalysis files).wave2Files =
          ((generateSimulatedAnalysis files).fileAnalysis.filter
            (fun kv => kv.2.migrationWave == 2)).map Prod.fst := rfl
      rw [h2, mem_filterMapFst _ hkeys _ kv hkv]
      simp
    · have h3 : (generateSimulatedAnalysis files).wave3Files =
          ((generateSimulatedAnalysis files).fileAnalysis.filter
            (fun kv => kv.2.migrationWave == 3)).map Prod.fst := rfl
      rw [h3, mem_filterMapFst _ hkeys _ kv hkv]
      simp

theorem roundHalfEven_intCast (k : ℤ) : roundHalfEven (k : ℚ) = k := by
  rw [roundHalfEven, Int.floor_intCast, if_pos (by norm_num)]

set_option maxRecDepth 65536 in
/-- Counterexample to C8 as stated: the recursive glob can produce two
files sharing the basename `x.sql` (in different subdirectories); the
units dict keyed by basename collapses them to one unit, while
`total_files` and `average_complexity` are computed over both globbed
files, so neither summary value is derivable by reducing the units
sequence. -/
theorem C8_counterexample :
    (generateSimulatedAnalysis
        [("x.sql", "SELECT 1"), ("x.sql", "a JOIN b JOIN c JOIN d")]).totalFiles ≠
      (generateSimulatedAnalysis
        [("x.sql", "SELECT 1"), ("x.sql", "a JOIN b JOIN c JOIN d")]).fileAnalysis.length ∧
    (generateSimulatedAnalysis
        [("x.sql", "SELECT 1"), ("x.sql", "a JOIN b JOIN c JOIN d")]).averageComplexity ≠
      roundTo2 (((generateSimulatedAnalysis
          [("x.sql", "SELECT 1"), ("x.sql", "a JOIN b JOIN c JOIN d")]).fileAnalysis.map
            (fun kv => kv.2.complexityScore)).sum /
        ((generateSimulatedAnalysis
          [("x.sql", "SELECT 1"),
           ("x.sql", "a JOIN b JOIN c JOIN d")]).fileAnalysis.length : ℚ)) := by
  have e1 : estimateSqlComplexity "SELECT 1" = 1 := by
    have hup : upperL "SELECT 1".data = "SELECT 1".data := by decide
    have hnl : numLines "SELECT 1".data = 1 := by decide
    simp only [estimateSqlComplexity, complexityFactors, hup, hnl]
    simp +decide [countOcc, startsWithL]
    norm_num [min_def]
  have e2 : estimateSqlComplexity "a JOIN b JOIN c JOIN d" = 5 / 2 := by
    have hup : upperL "a JOIN b JOIN c JOIN d".data =
        "A JOIN B JOIN C JOIN D".data := by decide
    have hnl : numLines "a JOIN b JOIN c JOIN d".data = 1 := by decide
    have hJ : ("JOIN".length - 1) = 3 := by decide
    simp only [estimateSqlComplexity, complexityFactors, hup, hnl]
    simp +decide [countOcc, startsWithL, hJ]
    norm_num [min_def]
  have hfa : (generateSimulatedAnalysis
      [("x.sql", "SELECT 1"), ("x.sql", "a JOIN b JOIN c JOIN d")]).fileAnalysis =
      [("x.sql", analyzeFileContent "a JOIN b JOIN c JOIN d")] := rfl
  have htf : (generateSimulatedAnalysis
      [("x.sql", "SELECT 1"), ("x.sql", "a JOIN b JOIN c JOIN d")]).totalFiles = 2 := rfl
  constructor
  · rw [htf, hfa]
    decide
  · have hav : (generateSimulatedAnalysis
        [("x.sql", "SELECT 1"), ("x.sql", "a JOIN b JOIN c JOIN d")]).averageComplexity =
        roundTo2 ((0 + estimateSqlComplexity "SELECT 1" +
          estimateSqlComplexity "a JOIN b JOIN c JOIN d") / ((2 : Nat) : ℚ)) := rfl
    have hsc : (analyzeFileContent "a JOIN b JOIN c JOIN d").complexityScore =
        estimateSqlComplexity "a JOIN b JOIN c JOIN d" := rfl
    rw [hav, hfa, e1, e2]
    simp only [List.map_cons, List.map_nil, List.sum_cons, List.sum_nil, List.length_cons,
      List.length_nil, hsc, e2]
    have hL : ((0 : ℚ) + 1 + 5 / 2) / ((2 : Nat) : ℚ) = 7 / 4 := by
      push_cast
      norm_num
    have hR : ((5 / 2 : ℚ) + 0) / ((0 + 1 : Nat) : ℚ) = 5 / 2 := by
      push_cast
      norm_num
    rw [hL]
    have r1 : roundTo2 (7 / 4) = 7 / 4 := by
      rw [roundTo2]
      have h175 : ((7 : ℚ) / 4) * 100 = ((175 : ℤ) : ℚ) := by norm_num
      rw [h175, roundHalfEven_intCast]
      norm_num
    have r2 : roundTo2 (5 / 2) = 5 / 2 := by
      rw [roundTo2]
      have h250 : ((5 : ℚ) / 2) * 100 = ((250 : ℤ) : ℚ) := by norm_num
      rw [h250, roundHalfEven_intCast]
      norm_num
    rw [hR, r1, r2]
    norm_num

/-- Witness for C8 at a concrete two-file directory. -/
theorem C8_witness :
    (([("a.sql", "SELECT 1"), ("b.sql", "SELECT 2")] :
        List (String × String)).map Prod.fst).Nodup ∧
    (generateSimulatedAnalysis [("a.sql", "SELECT 1"), ("b.sql", "SELECT 2")]).totalFiles =
      (generateSimulatedAnalysis
        [("a.sql", "SELECT 1"), ("b.sql", "SELECT 2")]).fileAnalysis.length :=
  ⟨by decide,
   (C8_summary_and_partition [("a.sql", "SELECT 1"), ("b.sql", "SELECT 2")] (by decide)).2.1⟩

/-- C9: availability (native vs fallback mode) is decided once at
construction — it is `true` only when the probed compatibility is
`"compatible"` and the caller did not force fallback mode — and none of
the four operations mutates any adapter field (each returns its input
state unchanged); a failing native call degrades that call only (its
result is tagged `simulated_fallback`) and a subsequent call on the
same state with a succeeding native outcome is native again. -/
theorem C9_session_mode_frame :
    (∀ (fbm sim : Bool) (env : ProbeEnv),
      (checkLakebridgeAvailability fbm sim env).lakebridgeAvailable = true →
        (checkLakebridgeAvailability fbm sim env).compatibilityStatus = "compatible" ∧
        fbm = false) ∧
    (∀ (s : AdapterState) (o : NativeOutcome) (files : List (String × String)),
      (analyzeLegacySql s o files).2 = s) ∧
    (∀ (s : AdapterState) (o : NativeOutcome) (sql srcD tgtD : String),
      (transpileSqlOp s o sql srcD tgtD).2 = s) ∧
    (∀ (s : AdapterState) (ws : Option (Nat × String)), (testConnection s ws).2 = s) ∧
    (∀ (s : AdapterState), (getStatus s).2 = s) ∧
    (∀ (s : AdapterState) (files : List (String × String)),
      ((analyzeLegacySql s NativeOutcome.fail files).1).method = "simulated_fallback") ∧
    (∀ (s : AdapterState) (sql srcD tgtD : String),
      ((transpileSqlOp s NativeOutcome.fail sql srcD tgtD).1).method =
        "simulated_fallback") ∧
    (∀ (s : AdapterState) (files : List (String × String)) (out : String),
      s.lakebridgeAvailable = true → s.fallbackMode = false →
        ((analyzeLegacySql ((analyzeLegacySql s NativeOutcome.fail files).2)
          (NativeOutcome.ok out) files).1).method = "lakebridge_native") := by
  refine ⟨?_, ?_, ?_, ?_, ?_, ?_, ?_, ?_⟩
  · intro fbm sim env h
    cases sim with
    | true =>
      simp [checkLakebridgeAvailability] at h
    | false =>
      cases hcli : env.cliOk with
      | false =>
        simp [checkLakebridgeAvailability, hcli] at h
      | true =>
        cases hl : env.labsOutcome with
        | none =>
          simp [checkLakebridgeAvailability, hcli, hl] at h
        | some pr =>
          obtain ⟨rc, out⟩ := pr
          simp only [checkLakebridgeAvailability, hcli, Bool.not_true, Bool.false_eq_true,
            if_false, hl] at h ⊢
          by_cases hrc : rc = 0 ∧ containsSub "lakebridge".data (lowerL out.data) = true
          · rw [if_pos hrc] at h ⊢
            by_cases hcomp :
                checkVersionCompatibility (some (extractLakebridgeVersion out env)) =
                  "compatible" ∧ fbm = false
            · rw [if_pos hcomp] at h ⊢
              exact ⟨hcomp.1, hcomp.2⟩
            · rw [if_neg hcomp] at h
              cases h
          · rw [if_neg hrc] at h
            cases h
  · intro s o files
    unfold analyzeLegacySql
    split_ifs
    · cases o <;> rfl
    · rfl
  · intro s o sql srcD tgtD
    unfold transpileSqlOp
    split_ifs
    · cases o <;> rfl
    · rfl
  · intro s ws
    unfold testConnection
    split_ifs
    · rfl
    · cases ws with
      | none => rfl
      | some pr =>
        obtain ⟨rc, _⟩ := pr
        by_cases hrc : rc = 0
        · simp [hrc]
        · simp [hrc]
  · intro s
    rfl
  · intro s files
    unfold analyzeLegacySql
    split_ifs <;> rfl
  · intro s sql srcD tgtD
    unfold transpileSqlOp
    split_ifs <;> rfl
  · intro s files out h1 h2
    have hframe : (analyzeLegacySql s NativeOutcome.fail files).2 = s := by
      unfold analyzeLegacySql
      split_ifs <;> rfl
    rw [hframe]
    unfold analyzeLegacySql
    rw [if_pos (by rw [h1, h2]; rfl)]
    rfl

/-- Witness for C9: from a compatible native-mode state, one failed
call degrades to the fallback tag while the next call with a good
outcome is native again. -/
theorem C9_witness :
    ((analyzeLegacySql ((analyzeLegacySql
        { fallbackMode := false, simulateUnavailable := false, lakebridgeAvailable := true,
          lakebridgeVersion := some "0.3.0", compatibilityStatus := "compatible",
          fallbackReason := none } NativeOutcome.fail []).2)
        (NativeOutcome.ok "analysis output") []).1).method = "lakebridge_native" :=
  C9_session_mode_frame.2.2.2.2.2.2.2
    { fallbackMode := false, simulateUnavailable := false, lakebridgeAvailable := true,
      lakebridgeVersion := some "0.3.0", compatibilityStatus := "compatible",
      fallbackReason := none } [] "analysis output" rfl rfl

end Workshop
